import Mathlib

/-!
Verification of the CRISPIN command-line launcher (`src/__main__.py`).

The program is a thin CLI around an external workflow engine: the `run`
subcommand resolves a pipeline entry path and launches the engine, and the
`init` subcommand copies bundled configuration templates into the working
directory.  We embed the control flow of `__main__.py` shallowly: the
filesystem is a list of existing path strings, `run` is a pure function from
its arguments and the filesystem to an outcome, and `init` is a function on
the filesystem state.  Helpers that live in the package's `util` module
(whose source is not part of this development) are modelled from the
specification and marked as such in their doc comments.
-/

namespace Crispin

/-- Model of `os.path.exists`: a path exists iff it is among the paths of the
modelled filesystem state. -/
def os_path_exists (fs : List String) (p : String) : Bool :=
  fs.contains p

/-- The call that `run` hands to `run_nextflow` in `__main__.py`:
the entry-file path, the run mode, and the variadic pass-through arguments. -/
structure NextflowCall where
  nextfile_path : String
  mode : String
  nextflow_args : List String
deriving DecidableEq

/-- Outcome of the `run` subcommand body (`__main__.py` lines 96-111):
either the pre-flight existence check raises `FileNotFoundError` with the
given message, or `run_nextflow` is called with the given arguments. -/
inductive RunResult where
  | fileNotFound (msg : String)
  | launched (call : NextflowCall)
deriving DecidableEq

/-- The body of the `run` click command (`__main__.py` lines 96-111).
`main_path` is checked against the literal string "CCBR/CRISPIN"; any other
value must exist on the filesystem, otherwise `FileNotFoundError` is raised
before `run_nextflow` is ever reached. -/
def run (fs : List String) (main_path : String) (_mode : String)
    (nextflow_args : List String) : RunResult :=
  if main_path ≠ "CCBR/CRISPIN" ∧ os_path_exists fs main_path = false then
    RunResult.fileNotFound ("Path to the crispin main.nf file not found: " ++ main_path)
  else
    RunResult.launched ⟨main_path, _mode, nextflow_args⟩

/-- Modelled from the spec: `run_nextflow` lives in the package's `util`
module, which is not in the sources.  Per §6 of the specification the
external engine is invoked as `run <entryPath> -profile <profileName>
<passthroughArgs...>`, with the pass-through arguments appended verbatim. -/
def nextflow_invocation (c : NextflowCall) : List String :=
  ["nextflow", "run", c.nextfile_path, "-profile", c.mode] ++ c.nextflow_args

/-- Modelled from the spec: the process exit code of a `run` invocation.
An uncaught `FileNotFoundError` terminates the interpreter with exit code 1;
a launched engine's exit code is propagated verbatim (§4.2 of the spec:
"Propagate the child's exit status as this command's own exit status").
`engine` maps the constructed invocation to the child's exit code. -/
def program_exit (engine : List String → Int) : RunResult → Int
  | RunResult.fileNotFound _ => 1
  | RunResult.launched c => engine (nextflow_invocation c)

/-- Options of the `run` click command after parsing:
`--main` (default `nek_base("main.nf")`), `--mode` (default "local"),
and the variadic `NEXTFLOW_ARGS` argument. -/
structure RunOpts where
  main_path : String
  mode : String
  nextflow_args : List String
deriving DecidableEq

/-- Outcome of parsing the command line of the `run` subcommand. -/
inductive ParseOutcome where
  | ok (opts : RunOpts)
  | help
  | missingValue (opt : String)
deriving DecidableEq

/-- The option name of a token, as click extracts it: everything before the
first `=` (click splits `--opt=value` at the first `=` before matching the
declared options; a token with no `=` is its own name). -/
def opt_name (t : String) : String :=
  ⟨t.data.takeWhile (fun c => c ≠ '=')⟩

/-- The explicit value of a `--opt=value` token, as click extracts it:
everything after the first `=`, or none when the token has no `=`. -/
def opt_explicit_value (t : String) : Option String :=
  if t.data.contains '=' then some ⟨(t.data.dropWhile (fun c => c ≠ '=')).drop 1⟩
  else none

/-- The click parser for the `run` command as configured in `__main__.py`:
the declared options `--main` and `--mode` each take a value, given either
as the next token or inline in the `--opt=value` form; `-h`/`--help` shows
help (the `help_option_names` context setting); a literal `--` is consumed
as the end-of-options separator, with every later token positional; and —
because the command sets `ignore_unknown_options=True` and declares the
variadic `NEXTFLOW_ARGS` argument — every other token, including tokens that
begin with `-`, is collected in order into `nextflow_args`. -/
def parse_run_tokens : List String → RunOpts → ParseOutcome
  | [], acc => ParseOutcome.ok acc
  | t :: rest, acc =>
    if opt_name t = "-h" ∨ opt_name t = "--help" then
      ParseOutcome.help
    else if t = "--" then
      ParseOutcome.ok { acc with nextflow_args := acc.nextflow_args ++ rest }
    else if opt_name t = "--main" then
      match opt_explicit_value t with
      | some v => parse_run_tokens rest { acc with main_path := v }
      | none =>
        match rest with
        | v :: rest2 => parse_run_tokens rest2 { acc with main_path := v }
        | [] => ParseOutcome.missingValue "--main"
    else if opt_name t = "--mode" then
      match opt_explicit_value t with
      | some v => parse_run_tokens rest { acc with mode := v }
      | none =>
        match rest with
        | v :: rest2 => parse_run_tokens rest2 { acc with mode := v }
        | [] => ParseOutcome.missingValue "--mode"
    else
      parse_run_tokens rest { acc with nextflow_args := acc.nextflow_args ++ [t] }

/-- Whether click recognizes some part of the token as one of the `run`
command's declared options: an exact or `--opt=value` long form of `--main`,
`--mode` or `--help`, the `-h` short form, or the help character inside a
single-dash short-option bundle (click scans such bundles character by
character, so a bundled `h` triggers the help flag). -/
def matches_declared_option (t : String) : Prop :=
  opt_name t = "--main" ∨ opt_name t = "--mode"
    ∨ opt_name t = "-h" ∨ opt_name t = "--help"
    ∨ (t.data.take 2 ≠ ['-', '-'] ∧ t.data.take 1 = ['-'] ∧ 'h' ∈ t.data.drop 1)

instance (t : String) : Decidable (matches_declared_option t) := by
  unfold matches_declared_option
  infer_instance

/-- Parse a `run` command line starting from the declared defaults:
`--main` defaults to the bundled entry path (`nek_base("main.nf")`, passed in
here as `default_main` since `nek_base` only fixes a constant string), and
`--mode` defaults to the literal "local" (`__main__.py` line 92). -/
def parse_run (default_main : String) (tokens : List String) : ParseOutcome :=
  parse_run_tokens tokens ⟨default_main, "local", []⟩

/-- The fixed template paths copied by `init` (`__main__.py` line 117). -/
def config_paths : List String := ["nextflow.config", "conf/", "assets/"]

/-- Modelled from the spec: `copy_config` lives in the package's `util`
module, which is not in the sources.  Per §4.1 of the specification it copies
each bundled template path into the current working directory; the behavior
on collision is the copying library's default (overwrite/merge, no error),
so on the path-set model it makes the given paths exist. -/
def copy_config (paths : List String) (fs : List String) : List String :=
  paths ++ fs

/-- Model of `os.mkdir`: creates the directory, raising `FileExistsError`
when the path already exists. -/
def os_mkdir (fs : List String) (p : String) : Except String (List String) :=
  if os_path_exists fs p then Except.error ("FileExistsError: " ++ p)
  else Except.ok (p :: fs)

/-- The body of the `init` click command (`__main__.py` lines 114-120):
copy the fixed template paths, then create `log/` only if it is absent. -/
def init (fs : List String) : Except String (List String) :=
  let fs1 := copy_config config_paths fs
  if os_path_exists fs1 "log/" = false then os_mkdir fs1 "log/"
  else Except.ok fs1

/-- Modelled from the spec: the `OrderedCommands` click group class lives in
the package's `util` module, which is not in the sources.  Per §4.3 of the
specification it lists subcommands in a stable, deliberately chosen
(registration) order in help text, not sorted. -/
def list_commands (registered : List String) : List String :=
  registered

/-- The subcommands in registration order: `cli.add_command(run)` then
`cli.add_command(init)` (`__main__.py` lines 123-124). -/
def cli_commands : List String := ["run", "init"]

/-- The order in which help text lists the subcommands. -/
def cli_help_order : List String := list_commands cli_commands

/- ### Helper lemmas -/

theorem os_path_exists_iff_mem (fs : List String) (p : String) :
    os_path_exists fs p = true ↔ p ∈ fs := by
  simp [os_path_exists]

theorem run_launched_inv (fs : List String) (mp m : String) (args : List String)
    (c : NextflowCall) (h : run fs mp m args = RunResult.launched c) :
    c = ⟨mp, m, args⟩ := by
  unfold run at h
  split at h
  · exact absurd h (by simp)
  · exact (RunResult.launched.injEq _ _).mp h.symm

/- ### Claims -/

/-- C1: for every entry path that is not the sentinel "CCBR/CRISPIN" and does
not exist on the filesystem, `run` raises a path-not-found error whose
message names the offending path, the process exits non-zero, and the
workflow launcher is never called. -/
theorem run_rejects_missing_path (fs : List String) (mp m : String)
    (args : List String) (engine : List String → Int)
    (hs : mp ≠ "CCBR/CRISPIN") (he : os_path_exists fs mp = false) :
    run fs mp m args
        = RunResult.fileNotFound ("Path to the crispin main.nf file not found: " ++ mp)
      ∧ program_exit engine (run fs mp m args) ≠ 0
      ∧ ∀ c, run fs mp m args ≠ RunResult.launched c := by
  have hrun : run fs mp m args
      = RunResult.fileNotFound ("Path to the crispin main.nf file not found: " ++ mp) := by
    unfold run
    exact if_pos ⟨hs, he⟩
  refine ⟨hrun, ?_, ?_⟩
  · rw [hrun]
    simp [program_exit]
  · intro c hc
    rw [hrun] at hc
    exact absurd hc (by simp)

theorem run_rejects_missing_path_witness :
    run [] "/tmp/x.nf" "local" []
        = RunResult.fileNotFound "Path to the crispin main.nf file not found: /tmp/x.nf"
      ∧ program_exit (fun _ => 0) (run [] "/tmp/x.nf" "local" []) ≠ 0
      ∧ ∀ c, run [] "/tmp/x.nf" "local" [] ≠ RunResult.launched c :=
  run_rejects_missing_path [] "/tmp/x.nf" "local" [] (fun _ => 0)
    (by decide) (by decide)

/-- C2: when the path given to `run` is the sentinel "CCBR/CRISPIN", no
filesystem existence check takes place (the outcome is the same on every
filesystem state) and `run` proceeds directly to invocation construction,
passing the sentinel through unmodified. -/
theorem run_sentinel_skips_check (fs fs2 : List String) (m : String)
    (args : List String) :
    run fs "CCBR/CRISPIN" m args = RunResult.launched ⟨"CCBR/CRISPIN", m, args⟩
      ∧ run fs "CCBR/CRISPIN" m args = run fs2 "CCBR/CRISPIN" m args := by
  constructor <;> simp [run]

/-- C3: whenever `run` launches the external engine, the program's exit code
equals the child's exit code exactly, with no translation (engine exits with
3 implies the program exits with 3). -/
theorem run_relays_exit_code (fs : List String) (mp m : String)
    (args : List String) (engine : List String → Int) (c : NextflowCall)
    (h : run fs mp m args = RunResult.launched c) :
    program_exit engine (run fs mp m args) = engine (nextflow_invocation c) := by
  rw [h]
  rfl

theorem run_relays_exit_code_witness :
    program_exit (fun _ => 3) (run [] "CCBR/CRISPIN" "local" [])
      = (fun _ => 3) (nextflow_invocation ⟨"CCBR/CRISPIN", "local", []⟩) :=
  run_relays_exit_code [] "CCBR/CRISPIN" "local" [] (fun _ => 3)
    ⟨"CCBR/CRISPIN", "local", []⟩ (by decide)

/-- C4: the pass-through arguments supplied to `run` appear in the
constructed engine invocation verbatim, in the same relative order, as the
suffix after the fixed engine tokens. -/
theorem run_passthrough_verbatim (fs : List String) (mp m : String)
    (args : List String) (c : NextflowCall)
    (h : run fs mp m args = RunResult.launched c) :
    c.nextflow_args = args
      ∧ nextflow_invocation c
          = ["nextflow", "run", c.nextfile_path, "-profile", c.mode] ++ args := by
  have hc := run_launched_inv fs mp m args c h
  subst hc
  exact ⟨rfl, rfl⟩

theorem run_passthrough_verbatim_witness :
    (NextflowCall.mk "main.nf" "local" ["-preview", "-work-dir", "wd"]).nextflow_args
        = ["-preview", "-work-dir", "wd"]
      ∧ nextflow_invocation ⟨"main.nf", "local", ["-preview", "-work-dir", "wd"]⟩
          = ["nextflow", "run", "main.nf", "-profile", "local"]
              ++ ["-preview", "-work-dir", "wd"] :=
  run_passthrough_verbatim ["main.nf"] "main.nf" "local"
    ["-preview", "-work-dir", "wd"] ⟨"main.nf", "local", ["-preview", "-work-dir", "wd"]⟩
    (by decide)

/-- C5: a successful `init` creates exactly the four documented paths —
`nextflow.config`, `conf/`, `assets/` and `log/` — and nothing else: after
`init`, a path exists iff it existed before or is one of the four. -/
theorem init_creates_exactly_four (fs : List String) :
    ∃ fs1, init fs = Except.ok fs1
      ∧ ∀ p, p ∈ fs1 ↔ p ∈ fs ∨ p ∈ ["nextflow.config", "conf/", "assets/", "log/"] := by
  unfold init os_mkdir
  by_cases hlog : os_path_exists (copy_config config_paths fs) "log/" = true
  · refine ⟨copy_config config_paths fs, by simp [hlog], ?_⟩
    intro p
    have hmem : "log/" ∈ copy_config config_paths fs :=
      (os_path_exists_iff_mem _ _).mp hlog
    simp only [copy_config, config_paths, List.mem_append, List.mem_cons,
      List.not_mem_nil, or_false] at hmem ⊢
    constructor
    · tauto
    · rintro (h | h | h | h | h) <;> simp_all
  · rw [Bool.not_eq_true] at hlog
    refine ⟨"log/" :: copy_config config_paths fs, by simp [hlog], ?_⟩
    intro p
    simp only [copy_config, config_paths, List.mem_append, List.mem_cons,
      List.not_mem_nil, or_false]
    tauto

/-- C6: `init` creates `log/` iff it is absent after the template copy — when
it already exists the state is left exactly as the copy produced it and no
creation is attempted — and running `init` twice in succession succeeds. -/
theorem init_log_iff_absent (fs : List String) :
    ("log/" ∈ fs → init fs = Except.ok (copy_config config_paths fs))
      ∧ ("log/" ∉ fs → init fs = Except.ok ("log/" :: copy_config config_paths fs))
      ∧ ∃ fs1 fs2, init fs = Except.ok fs1 ∧ init fs1 = Except.ok fs2 := by
  have hnc : "log/" ∉ config_paths := by decide
  refine ⟨?_, ?_, ?_⟩
  · intro hmem
    have hlog : os_path_exists (copy_config config_paths fs) "log/" = true :=
      (os_path_exists_iff_mem _ _).mpr (by simp [copy_config, hmem])
    simp [init, hlog]
  · intro hmem
    have hlog : os_path_exists (copy_config config_paths fs) "log/" = false := by
      rw [← Bool.not_eq_true, os_path_exists_iff_mem]
      simp [copy_config]
      tauto
    simp [init, os_mkdir, hlog]
  · obtain ⟨fs1, h1, hiff⟩ := init_creates_exactly_four fs
    have hmem1 : "log/" ∈ fs1 := (hiff "log/").mpr (by simp)
    have hlog1 : os_path_exists (copy_config config_paths fs1) "log/" = true :=
      (os_path_exists_iff_mem _ _).mpr (by simp [copy_config, hmem1])
    exact ⟨fs1, copy_config config_paths fs1, h1, by simp [init, hlog1]⟩

theorem init_log_iff_absent_witness :
    init ["log/"] = Except.ok (copy_config config_paths ["log/"])
      ∧ init [] = Except.ok ("log/" :: copy_config config_paths []) :=
  ⟨(init_log_iff_absent ["log/"]).1 (by decide),
   (init_log_iff_absent []).2.1 (by decide)⟩

/-- C7: help text lists the two subcommands in registration order, `run`
then `init`, which is not the alphabetically sorted order. -/
theorem cli_help_lists_registration_order :
    cli_help_order = ["run", "init"] ∧ cli_help_order ≠ ["init", "run"] := by
  decide

/-- C8: sentinel recognition in `run` is exact, case-sensitive string
equality with "CCBR/CRISPIN": for every other string (case variants such as
"ccbr/crispin" included) the value is treated as a local path, and `run`
launches iff that path exists on the filesystem. -/
theorem run_sentinel_exact (fs : List String) (mp m : String)
    (args : List String) (hs : mp ≠ "CCBR/CRISPIN") :
    (∃ c, run fs mp m args = RunResult.launched c)
      ↔ os_path_exists fs mp = true := by
  constructor
  · rintro ⟨c, hc⟩
    by_contra hex
    rw [Bool.not_eq_true] at hex
    have := (run_rejects_missing_path fs mp m args (fun _ => 0) hs hex).2.2 c
    exact this hc
  · intro hex
    refine ⟨⟨mp, m, args⟩, ?_⟩
    unfold run
    rw [if_neg]
    simp [hex]

theorem run_sentinel_exact_witness :
    ("ccbr/crispin" ≠ "CCBR/CRISPIN")
      ∧ ((∃ c, run [] "ccbr/crispin" "local" [] = RunResult.launched c)
          ↔ os_path_exists [] "ccbr/crispin" = true) :=
  ⟨by decide, run_sentinel_exact [] "ccbr/crispin" "local" [] (by decide)⟩


theorem parse_run_tokens_mode (tokens : List String) (acc : RunOpts) :
    ∀ opts : RunOpts, (∀ t ∈ tokens, opt_name t ≠ "--mode") →
      parse_run_tokens tokens acc = ParseOutcome.ok opts →
      opts.mode = acc.mode := by
  induction tokens, acc using parse_run_tokens.induct with
  | case1 acc =>
    intro opts hm hp
    rw [parse_run_tokens.eq_1] at hp
    cases hp
    rfl
  | case2 t rest acc hcond =>
    intro opts hm hp
    cases rest with
    | nil =>
      rw [parse_run_tokens.eq_3, if_pos hcond] at hp
      exact ParseOutcome.noConfusion hp
    | cons v rest2 =>
      rw [parse_run_tokens.eq_2, if_pos hcond] at hp
      exact ParseOutcome.noConfusion hp
  | case3 rest acc hcond =>
    intro opts hm hp
    cases rest with
    | nil =>
      rw [parse_run_tokens.eq_3, if_neg hcond, if_pos rfl] at hp
      cases hp
      rfl
    | cons v rest2 =>
      rw [parse_run_tokens.eq_2, if_neg hcond, if_pos rfl] at hp
      cases hp
      rfl
  | case4 t rest acc h1 h2 h3 v hv ih =>
    intro opts hm hp
    have hm2 : ∀ s ∈ rest, opt_name s ≠ "--mode" :=
      fun s hs => hm s (List.mem_cons_of_mem t hs)
    cases rest with
    | nil =>
      rw [parse_run_tokens.eq_3, if_neg h1, if_neg h2, if_pos h3, hv] at hp
      exact ih opts (fun s hs => absurd hs (List.not_mem_nil s)) hp
    | cons w rest2 =>
      rw [parse_run_tokens.eq_2, if_neg h1, if_neg h2, if_pos h3, hv] at hp
      exact ih opts hm2 hp
  | case5 t acc h1 h2 h3 hv v rest2 ih =>
    intro opts hm hp
    rw [parse_run_tokens.eq_2, if_neg h1, if_neg h2, if_pos h3, hv] at hp
    exact ih opts (fun s hs => hm s (by simp [hs])) hp
  | case6 t acc h1 h2 h3 hv =>
    intro opts hm hp
    rw [parse_run_tokens.eq_3, if_neg h1, if_neg h2, if_pos h3, hv] at hp
    exact ParseOutcome.noConfusion hp
  | case7 t rest acc h1 h2 h3 h4 v hv ih =>
    intro opts hm hp
    exact absurd h4 (hm t (List.mem_cons_self _ _))
  | case8 t acc h1 h2 h3 h4 hv v rest2 ih =>
    intro opts hm hp
    exact absurd h4 (hm t (List.mem_cons_self _ _))
  | case9 t acc h1 h2 h3 h4 hv =>
    intro opts hm hp
    exact absurd h4 (hm t (List.mem_cons_self _ _))
  | case10 t rest acc h1 h2 h3 h4 ih =>
    intro opts hm hp
    have hm2 : ∀ s ∈ rest, opt_name s ≠ "--mode" :=
      fun s hs => hm s (List.mem_cons_of_mem t hs)
    cases rest with
    | nil =>
      rw [parse_run_tokens.eq_3, if_neg h1, if_neg h2, if_neg h3, if_neg h4,
        parse_run_tokens.eq_1] at hp
      cases hp
      rfl
    | cons v rest2 =>
      rw [parse_run_tokens.eq_2, if_neg h1, if_neg h2, if_neg h3, if_neg h4] at hp
      exact ih opts hm2 hp

theorem parse_run_tokens_unknown (tokens : List String) (acc : RunOpts)
    (h : ∀ t ∈ tokens, opt_name t ≠ "--main" ∧ opt_name t ≠ "--mode"
        ∧ opt_name t ≠ "-h" ∧ opt_name t ≠ "--help" ∧ t ≠ "--") :
    parse_run_tokens tokens acc
      = ParseOutcome.ok { acc with nextflow_args := acc.nextflow_args ++ tokens } := by
  induction tokens generalizing acc with
  | nil =>
    rw [parse_run_tokens.eq_1]
    simp
  | cons t rest ih =>
    obtain ⟨h1, h2, h3, h4, h5⟩ := h t (List.mem_cons_self t rest)
    have hcond : ¬(opt_name t = "-h" ∨ opt_name t = "--help") := by tauto
    have hrest : ∀ s ∈ rest, opt_name s ≠ "--main" ∧ opt_name s ≠ "--mode"
        ∧ opt_name s ≠ "-h" ∧ opt_name s ≠ "--help" ∧ s ≠ "--" :=
      fun s hs => h s (List.mem_cons_of_mem t hs)
    cases rest with
    | nil =>
      rw [parse_run_tokens.eq_3, if_neg hcond, if_neg h5, if_neg h1, if_neg h2,
        parse_run_tokens.eq_1]
    | cons v rest2 =>
      rw [parse_run_tokens.eq_2, if_neg hcond, if_neg h5, if_neg h1, if_neg h2, ih _ hrest]
      simp

/-- C9: when the user omits `--mode` — no token is the option name `--mode`,
in the separate-token or the `--mode=value` form — parsing the `run` command
line yields the fixed default mode "local", and that mode is forwarded to
the workflow launcher unchanged. -/
theorem run_default_mode_local (d : String) (tokens fs : List String)
    (opts : RunOpts) (c : NextflowCall)
    (hm : ∀ t ∈ tokens, opt_name t ≠ "--mode")
    (hp : parse_run d tokens = ParseOutcome.ok opts)
    (hr : run fs opts.main_path opts.mode opts.nextflow_args = RunResult.launched c) :
    opts.mode = "local" ∧ c.mode = "local" := by
  have hp2 : parse_run_tokens tokens ⟨d, "local", []⟩ = ParseOutcome.ok opts := hp
  have h1 : opts.mode = "local" :=
    parse_run_tokens_mode tokens ⟨d, "local", []⟩ opts hm hp2
  have h2 := run_launched_inv fs opts.main_path opts.mode opts.nextflow_args c hr
  refine ⟨h1, ?_⟩
  rw [h2]
  exact h1

theorem run_default_mode_local_witness :
    (RunOpts.mk "CCBR/CRISPIN" "local" []).mode = "local"
      ∧ (NextflowCall.mk "CCBR/CRISPIN" "local" []).mode = "local" :=
  run_default_mode_local "main.nf" ["--main", "CCBR/CRISPIN"] []
    ⟨"CCBR/CRISPIN", "local", []⟩ ⟨"CCBR/CRISPIN", "local", []⟩
    (by decide) (by decide) (by decide)

/-- C10 counterexample: the end-of-options separator "--" begins with "-"
and matches no declared `run` option, yet it is not collected into the
pass-through sequence: parsing the command line ["--"] succeeds with an
empty pass-through, so the token was consumed rather than forwarded. -/
theorem run_separator_swallowed :
    parse_run "main.nf" ["--"] = ParseOutcome.ok ⟨"main.nf", "local", []⟩
      ∧ ¬ matches_declared_option "--"
      ∧ "--" ∉ (RunOpts.mk "main.nf" "local" []).nextflow_args := by
  decide

/-- C10 (amended): the `run` command never rejects an unrecognized option
token: every command line whose tokens are neither recognized, even in part,
as a declared option (exact long names, their `--opt=value` forms, `-h`, or
a bundled help character) nor the end-of-options separator "--" parses
successfully, with every token collected, in order, into the pass-through
argument sequence.  The separator exclusion is the amendment: click consumes
a literal "--" instead of collecting it. -/
theorem run_accepts_unknown_options (d : String) (tokens : List String)
    (h : ∀ t ∈ tokens, ¬ matches_declared_option t ∧ t ≠ "--") :
    parse_run d tokens = ParseOutcome.ok ⟨d, "local", tokens⟩ := by
  have h2 : ∀ t ∈ tokens, opt_name t ≠ "--main" ∧ opt_name t ≠ "--mode"
      ∧ opt_name t ≠ "-h" ∧ opt_name t ≠ "--help" ∧ t ≠ "--" := by
    intro t ht
    obtain ⟨hnm, hsep⟩ := h t ht
    simp only [matches_declared_option] at hnm
    push_neg at hnm
    exact ⟨hnm.1, hnm.2.1, hnm.2.2.1, hnm.2.2.2.1, hsep⟩
  show parse_run_tokens tokens ⟨d, "local", []⟩ = ParseOutcome.ok ⟨d, "local", tokens⟩
  rw [parse_run_tokens_unknown tokens ⟨d, "local", []⟩ h2]
  simp

theorem run_accepts_unknown_options_witness :
    parse_run "main.nf" ["-preview", "-work-dir", "wd", "--foo=bar", "s.csv"]
      = ParseOutcome.ok
          ⟨"main.nf", "local", ["-preview", "-work-dir", "wd", "--foo=bar", "s.csv"]⟩ :=
  run_accepts_unknown_options "main.nf"
    ["-preview", "-work-dir", "wd", "--foo=bar", "s.csv"] (by decide)

end Crispin
